import Mathlib

/-!
Verification development for `generate_report.py` (Below console-RPG report
generator).  The script drives the fpdf document writer: a cursor moves down
fixed-size A4 pages, block renderers (`chapter_title`, `body_text`,
`bullet_point`, `code_block`, `bold_text`, the TOC loop) draw text cells, and
the framework invokes `header`/`footer` on every page transition, with the
deferred total-page-count token `{nb}` substituted after layout.

Shallow embedding conventions:
* every length is an integer number of tenths of a millimetre, so the
  source's millimetre constants (4.2, 5.5, 270, ...) are exact integers
  (42, 55, 2700, ...); font sizes stay in points;
* the drawing context is an explicit `PdfState` threaded through each
  operation; drawn output is the list of `Prim` primitives, each tagged with
  the page it lands on and whether the header, the footer or body content
  emitted it;
* fpdf behaviour used by the script is embedded faithfully: `cell` performs
  an automatic page break when `y + h` exceeds `pageH - bMargin` (the
  `set_auto_page_break(auto=True, margin=20)` trigger), `add_page` runs the
  footer of the old page and the header of the new one while saving and
  restoring the content font/colours, `set_y` with a negative argument
  anchors from the page bottom and resets `x` to the left margin, a cell
  width of 0 extends to the right margin;
* proportional-font word wrapping inside `multi_cell` uses an approximate
  constant character advance (`charW`); no claim below depends on where a
  given word wraps, only on the width bound handed to the wrapper.
-/

namespace BelowReport

/-- Font and colour state of the fpdf drawing context:
family, style flags ("", "B", "I"), size in points, and the three
colours (`set_text_color`, `set_draw_color`, `set_fill_color`). -/
structure Style where
  family : String
  flags : String
  size : Int
  textColor : Int × Int × Int
  drawColor : Int × Int × Int
  fillColor : Int × Int × Int
deriving DecidableEq

/-- fpdf defaults: no font selected, size 12, black text/stroke, white fill. -/
def defaultStyle : Style :=
  ⟨"", "", 12, (0, 0, 0), (0, 0, 0), (255, 255, 255)⟩

/-- Which part of the program emitted a primitive. -/
inductive Src
  | header
  | footer
  | body
deriving DecidableEq

/-- Cell text alignment (fpdf `align` parameter). -/
inductive Align
  | L
  | C
  | R
  | J
deriving DecidableEq

/-- fpdf `new_x` parameter values used by the script. -/
inductive NewX
  | RIGHT
  | LMARGIN
deriving DecidableEq

/-- fpdf `new_y` parameter values used by the script. -/
inductive NewY
  | TOP
  | NEXT
deriving DecidableEq

/-- A drawn primitive.  A text cell records exactly the state that affects
its rendering (font family/flags/size and text colour); a line segment is
stroked with the ambient draw colour; a `style="DF"` rectangle uses both the
draw and the fill colour. -/
inductive Prim
  | textCell (page : Nat) (x y w h : Int) (text : String)
      (family flags : String) (size : Int) (color : Int × Int × Int)
      (al : Align) (src : Src)
  | lineSeg (page : Nat) (x1 y1 x2 y2 : Int) (color : Int × Int × Int)
      (src : Src)
  | rectPrim (page : Nat) (x y w h : Int)
      (stroke fill : Int × Int × Int) (src : Src)
deriving DecidableEq

/-- Page the primitive was drawn on. -/
def Prim.pageOf : Prim → Nat
  | .textCell p _ _ _ _ _ _ _ _ _ _ _ => p
  | .lineSeg p _ _ _ _ _ _ => p
  | .rectPrim p _ _ _ _ _ _ _ => p

/-- Emitting component of the primitive. -/
def Prim.srcOf : Prim → Src
  | .textCell _ _ _ _ _ _ _ _ _ _ _ s => s
  | .lineSeg _ _ _ _ _ _ s => s
  | .rectPrim _ _ _ _ _ _ _ s => s

/-- Left edge of the primitive (for text cells and rectangles). -/
def Prim.xOf : Prim → Int
  | .textCell _ x _ _ _ _ _ _ _ _ _ _ => x
  | .lineSeg _ x _ _ _ _ _ => x
  | .rectPrim _ x _ _ _ _ _ _ => x

/-- Width of the primitive (0 for line segments). -/
def Prim.wOf : Prim → Int
  | .textCell _ _ _ w _ _ _ _ _ _ _ _ => w
  | .lineSeg _ _ _ _ _ _ _ => 0
  | .rectPrim _ _ _ w _ _ _ _ => w

/-- Text carried by the primitive ("" for non-text primitives). -/
def Prim.textOf : Prim → String
  | .textCell _ _ _ _ _ t _ _ _ _ _ _ => t
  | .lineSeg _ _ _ _ _ _ _ => ""
  | .rectPrim _ _ _ _ _ _ _ _ => ""

/-- State of the drawing context: cursor, current 1-indexed page number
(0 before the first `add_page`), style, primitives drawn so far, and
bookkeeping of the pages on which the framework ran the header
respectively the footer (the footer entry also records the anchor
ordinate chosen by `set_y`). -/
structure PdfState where
  x : Int
  y : Int
  page : Nat
  style : Style
  prims : List Prim
  headerPages : List Nat
  footerLog : List (Nat × Int)
deriving DecidableEq

/-- A4 width: 210 mm. -/
def pageW : Int := 2100

/-- A4 height: 297 mm. -/
def pageH : Int := 2970

/-- fpdf default left margin, 10 mm. -/
def lMargin : Int := 100

/-- fpdf default top margin, 10 mm. -/
def tMargin : Int := 100

/-- fpdf default right margin, 10 mm. -/
def rMargin : Int := 100

/-- `set_auto_page_break(auto=True, margin=20)`. -/
def bMargin : Int := 200

/-- fpdf's automatic page-break trigger: `page height - bottom margin`. -/
def pageBreakTrigger : Int := pageH - bMargin

/-- `set_font(family, flags, size)`. -/
def set_font (fam fl : String) (sz : Int) (s : PdfState) : PdfState :=
  { s with style := { s.style with family := fam, flags := fl, size := sz } }

/-- `set_text_color(r, g, b)`. -/
def set_text_color (r g b : Int) (s : PdfState) : PdfState :=
  { s with style := { s.style with textColor := (r, g, b) } }

/-- `set_draw_color(r, g, b)`. -/
def set_draw_color (r g b : Int) (s : PdfState) : PdfState :=
  { s with style := { s.style with drawColor := (r, g, b) } }

/-- `set_fill_color(r, g, b)`. -/
def set_fill_color (r g b : Int) (s : PdfState) : PdfState :=
  { s with style := { s.style with fillColor := (r, g, b) } }

/-- `set_x(v)`. -/
def set_x (v : Int) (s : PdfState) : PdfState :=
  { s with x := v }

/-- `set_xy(vx, vy)`. -/
def set_xy (vx vy : Int) (s : PdfState) : PdfState :=
  { s with x := vx, y := vy }

/-- `set_y(v)`: negative ordinates anchor from the page bottom, and fpdf
moves `x` back to the left margin. -/
def set_y (v : Int) (s : PdfState) : PdfState :=
  { s with x := lMargin, y := if v < 0 then pageH + v else v }

/-- `ln(h)`: line break of height `h`, `x` back to the left margin. -/
def ln (h : Int) (s : PdfState) : PdfState :=
  { s with x := lMargin, y := s.y + h }

/-- `line(x1, y1, x2, y2)`: stroked with the ambient draw colour. -/
def line (src : Src) (x1 y1 x2 y2 : Int) (s : PdfState) : PdfState :=
  { s with prims :=
      s.prims ++ [Prim.lineSeg s.page x1 y1 x2 y2 s.style.drawColor src] }

/-- `rect(x, y, w, h, style="DF")`. -/
def rect (x y w h : Int) (s : PdfState) : PdfState :=
  { s with prims :=
      s.prims ++ [Prim.rectPrim s.page x y w h
        s.style.drawColor s.style.fillColor Src.body] }

/-- Auxiliary for `pySplit`, accumulating the current field in reverse. -/
def pySplitAux (sep : Char) (acc : List Char) : List Char → List String
  | [] => [String.mk acc.reverse]
  | c :: rest =>
    if c = sep then String.mk acc.reverse :: pySplitAux sep [] rest
    else pySplitAux sep (c :: acc) rest

/-- Python's `str.split(sep)` for a one-character separator (the script only
splits on `"\n"` and `" "`): every occurrence of the separator delimits a
field, and consecutive separators produce empty fields. -/
def pySplit (sep : Char) (s : String) : List String :=
  pySplitAux sep [] s.data

/-- Python's `str.startswith(c)` for a one-character prefix. -/
def headIs (c : Char) (s : String) : Bool :=
  match s.data with
  | [] => false
  | d :: _ => d == c

/-- fpdf cell width resolution: width 0 extends to the right margin. -/
def cellW (w : Int) (s : PdfState) : Int :=
  if w = 0 then pageW - rMargin - s.x else w

/-- `cell(w, h, text, ...)` without the automatic page break — fpdf
suppresses the break while the header or the footer is running
(`in_footer` flag), so this is the form those callbacks use. -/
def cellNB (src : Src) (w h : Int) (text : String) (al : Align)
    (nx : NewX) (ny : NewY) (s : PdfState) : PdfState :=
  let aw := cellW w s
  let p := Prim.textCell s.page s.x s.y aw h text
    s.style.family s.style.flags s.style.size s.style.textColor al src
  { s with
    x := match nx with
      | .RIGHT => s.x + aw
      | .LMARGIN => lMargin
    y := match ny with
      | .TOP => s.y
      | .NEXT => s.y + h
    prims := s.prims ++ [p] }

/-- `header(self)`: fixed running title, the page label
`"Page {page_no}/{nb}"` with the deferred total-page token, and a
horizontal rule, in Helvetica italic 8 with grey text colour. -/
def header (s : PdfState) : PdfState :=
  let s := set_font "Helvetica" "I" 8 s
  let s := set_text_color 120 120 120 s
  let s := cellNB Src.header 0 50 "TP3 - Hexagone 2026 | Mathias Kowalski"
    Align.L NewX.RIGHT NewY.TOP s
  let s := cellNB Src.header 0 50
    ("Page " ++ toString s.page ++ "/\x7bnb\x7d")
    Align.R NewX.LMARGIN NewY.NEXT s
  let s := line Src.header 100 130 2000 130 s
  ln 40 s

/-- `footer(self)`: `set_y(-15)`, Helvetica italic 8 grey, a horizontal rule
2 mm above the anchor, and the fixed centred caption.  The run is logged
with the anchor ordinate for the page-level bookkeeping. -/
def footer (s : PdfState) : PdfState :=
  let s := set_y (-150) s
  let anchor := s.y
  let s := set_font "Helvetica" "I" 8 s
  let s := set_text_color 120 120 120 s
  let s := line Src.footer 100 (s.y - 20) 2000 (s.y - 20) s
  let s := cellNB Src.footer 0 100
    "Below - Console RPG | C++17 / ECS Architecture"
    Align.C NewX.RIGHT NewY.TOP s
  { s with footerLog := s.footerLog ++ [(s.page, anchor)] }

/-- `add_page()`: fpdf runs the footer of the page being closed (if any),
starts the next page with the cursor at the top margin, runs the header,
and restores the content font/colours it saved on entry. -/
def add_page (s : PdfState) : PdfState :=
  let saved := s.style
  let s1 := if 1 ≤ s.page then footer s else s
  let s2 := { s1 with page := s1.page + 1, x := lMargin, y := tMargin }
  let s3 := header s2
  { s3 with style := saved, headerPages := s3.headerPages ++ [s2.page] }

/-- Closing the document (`pdf.output(...)`): fpdf finalizes the last page,
running its footer. -/
def closeDoc (s : PdfState) : PdfState :=
  if 1 ≤ s.page then footer s else s

/-- `cell(w, h, text, ...)` for body content: fpdf first performs the
automatic page break when `y + h` would pass the trigger, restoring the
abscissa afterwards, then draws the cell. -/
def cell (w h : Int) (text : String) (al : Align)
    (nx : NewX) (ny : NewY) (s : PdfState) : PdfState :=
  let s :=
    if pageBreakTrigger < s.y + h then
      let savedX := s.x
      let s := add_page s
      { s with x := savedX }
    else s
  cellNB Src.body w h text al nx ny s

/-- Approximate character advance (tenths of a millimetre) for a font of
`size` points; stands in for fpdf's per-glyph metrics. -/
def charW (size : Int) : Int := size * 18 / 10

/-- Greedy word wrap: accumulate words while the line stays within
`m` characters, break otherwise. -/
def wrapPara (m : Nat) (acc : String) : List String → List String
  | [] => [acc]
  | w :: ws =>
    if acc = "" then wrapPara m w ws
    else if (acc ++ " " ++ w).length ≤ m then wrapPara m (acc ++ " " ++ w) ws
    else acc :: wrapPara m w ws

/-- Width-constrained wrapping of `multi_cell` text: split on newlines,
then greedily pack words into lines of at most
`width / charW size` characters. -/
def wrapText (w size : Int) (text : String) : List String :=
  let m := max (w / charW size).toNat 1
  (pySplit '\n' text).flatMap (fun para => wrapPara m "" (pySplit ' ' para))

/-- The per-line loop of `multi_cell`: each wrapped line is drawn as a cell
of the resolved width at the multi-cell's left abscissa; the automatic page
break applies between lines. -/
def mcFold (startX w h : Int) (ls : List String) (s : PdfState) : PdfState :=
  ls.foldl
    (fun st l => cell w h l Align.J NewX.LMARGIN NewY.NEXT (set_x startX st))
    s

/-- `multi_cell(w, h, text)`: resolves the width once, wraps the text, draws
the lines, and leaves the abscissa at the left margin. -/
def multi_cell (w h : Int) (text : String) (s : PdfState) : PdfState :=
  let aw := cellW w s
  let s' := mcFold s.x aw h (wrapText aw s.style.size text) s
  { s' with x := lMargin }

/-- `get_string_width(text)` under the approximate metrics. -/
def get_string_width (text : String) (s : PdfState) : Int :=
  text.length * charW s.style.size

/-- `chapter_title(title, level)`. -/
def chapter_title (title : String) (level : Nat) (s : PdfState) : PdfState :=
  if level = 1 then
    let s := set_font "Helvetica" "B" 16 s
    let s := set_text_color 25 55 120 s
    let s := ln 40 s
    let s := cell 0 100 title Align.L NewX.LMARGIN NewY.NEXT s
    let s := set_draw_color 25 55 120 s
    let s := line Src.body 100 s.y 2000 s.y s
    ln 40 s
  else if level = 2 then
    let s := set_font "Helvetica" "B" 13 s
    let s := set_text_color 40 80 150 s
    let s := ln 30 s
    let s := cell 0 80 title Align.L NewX.LMARGIN NewY.NEXT s
    ln 20 s
  else if level = 3 then
    let s := set_font "Helvetica" "B" 11 s
    let s := set_text_color 60 100 170 s
    let s := ln 20 s
    let s := cell 0 70 title Align.L NewX.LMARGIN NewY.NEXT s
    ln 10 s
  else s

/-- `body_text(text)`. -/
def body_text (text : String) (s : PdfState) : PdfState :=
  let s := set_font "Helvetica" "" 10 s
  let s := set_text_color 30 30 30 s
  let s := multi_cell 0 55 text s
  ln 10 s

/-- `bullet_point(text, indent=10)`: offsets the abscissa from the left
margin by `indent`, and wraps `"- " + text` within the printable width
reduced by the indent. -/
def bullet_point (text : String) (indent : Int) (s : PdfState) : PdfState :=
  let s := set_font "Helvetica" "" 10 s
  let s := set_text_color 30 30 30 s
  let s := set_x (lMargin + indent) s
  multi_cell (pageW - rMargin - lMargin - indent) 55 ("- " ++ text) s

/-- The per-line loop of `code_block`: each literal line is one cell of
height 4.2 mm, with the abscissa pinned back to `xpos` after each line. -/
def cbFold (xpos : Int) (ls : List String) (s : PdfState) : PdfState :=
  ls.foldl
    (fun st l => set_x xpos (cell 0 42 l Align.L NewX.LMARGIN NewY.NEXT st))
    s

/-- `code_block(code)`: Courier 8 on a light filled rectangle; the height
`len(lines) * 4.2 + 4` is measured first and compared against the hardcoded
constant 270 to decide the pre-draw page break, then the rectangle and the
(unwrapped) lines are drawn. -/
def code_block (code : String) (s : PdfState) : PdfState :=
  let s := set_font "Courier" "" 8 s
  let s := set_fill_color 240 240 245 s
  let s := set_text_color 40 40 40 s
  let s := set_draw_color 200 200 210 s
  let x := s.x + 50
  let y := s.y
  let lines := pySplit '\n' code
  let h : Int := lines.length * 42 + 40
  let broke := 2700 < y + h
  let s := if broke then add_page s else s
  let y := if broke then s.y else y
  let s := rect x y 1800 h s
  let s := set_xy (x + 30) (y + 20) s
  let s := cbFold (x + 30) lines s
  ln 30 s

/-- The font/colour selection `code_block` performs before measuring. -/
def cbStyle (s : PdfState) : PdfState :=
  set_draw_color 200 200 210 (set_text_color 40 40 40
    (set_fill_color 240 240 245 (set_font "Courier" "" 8 s)))

/-- `bold_text(label, text)`. -/
def bold_text (label text : String) (s : PdfState) : PdfState :=
  let s := set_font "Helvetica" "B" 10 s
  let s := set_text_color 30 30 30 s
  let s := cell (get_string_width label s + 10) 55 label
    Align.L NewX.RIGHT NewY.TOP s
  let s := set_font "Helvetica" "" 10 s
  multi_cell 0 55 text s

/-- The dot leader of a TOC row: `"." * (70 - len(num) - len(title))` with
Python's semantics that a non-positive repeat count yields the empty
string. -/
def tocDots (num title : String) : String :=
  String.mk (List.replicate ((70 - (num.length : Int) - title.length).toNat) '.')

/-- The rendered TOC row text `f"{num}  {title} {dots} {page}"`. -/
def tocRow (num title : String) (page : Nat) : String :=
  num ++ "  " ++ title ++ " " ++ tocDots num title ++ " " ++ toString page

/-- One iteration of the TOC loop in `generate_report`: sub-entries (number
starting with a space) drop the bold flag. -/
def tocEntryRow (num title : String) (page : Nat) (s : PdfState) : PdfState :=
  let s := set_font "Helvetica" (if headIs ' ' num then "" else "B") 11 s
  cell 0 65 (tocRow num title page) Align.L NewX.LMARGIN NewY.NEXT s

/-- The block taxonomy rendered by the script, plus the explicit page breaks
and vertical spacers `generate_report` interleaves. -/
inductive Block
  | heading (level : Nat) (text : String)
  | paragraph (text : String)
  | bullet (text : String) (indent : Int)
  | code (code : String)
  | keyValue (label text : String)
  | tocEntry (num title : String) (page : Nat)
  | pageBreak
  | vspace (h : Int)
deriving DecidableEq

/-- Dispatch of one block to its renderer. -/
def renderBlock (s : PdfState) (b : Block) : PdfState :=
  match b with
  | .heading level t => chapter_title t level s
  | .paragraph t => body_text t s
  | .bullet t i => bullet_point t i s
  | .code c => code_block c s
  | .keyValue l t => bold_text l t s
  | .tocEntry n t p => tocEntryRow n t p s
  | .pageBreak => add_page s
  | .vspace h => ln h s

/-- Fresh fpdf context before the first `add_page`. -/
def initState : PdfState :=
  { x := lMargin, y := tMargin, page := 0, style := defaultStyle,
    prims := [], headerPages := [], footerLog := [] }

/-- Whole-document rendering: first page, the block sequence, finalize. -/
def renderDoc (bs : List Block) : PdfState :=
  closeDoc (bs.foldl renderBlock (add_page initState))

/-- Substitution of every occurrence of the deferred token `{nb}` in a
character list. -/
def substNb (sub : List Char) : List Char → List Char
  | '\x7b' :: 'n' :: 'b' :: '\x7d' :: rest => sub ++ substNb sub rest
  | c :: rest => c :: substNb sub rest
  | [] => []

/-- Substitution of the deferred token in one primitive. -/
def replaceToken (total : Nat) (p : Prim) : Prim :=
  match p with
  | .textCell pg x y w h t fam fl sz c al src =>
      .textCell pg x y w h (String.mk (substNb (toString total).data t.data))
        fam fl sz c al src
  | p => p

/-- Modelled from the spec: the resolution pass for the deferred
total-page-count token.  The substitution of `{nb}` (registered by
`pdf.alias_nb_pages()`) is performed inside the external fpdf library, not
in this repository's source, so per §4.5/§7 of the spec it is embedded as:
compute the true total `len(Document.pages)`, fail with `ConfigurationError`
when its decimal width exceeds the reserved placeholder width, otherwise
substitute it into every text primitive. -/
def resolveDeferred (reserved : Nat) (s : PdfState) :
    Except String (List Prim) :=
  if reserved < (toString s.page).length then .error "ConfigurationError"
  else .ok (s.prims.map (replaceToken s.page))

/-- Primitives emitted between an earlier state and a later one. -/
def emitted (s s' : PdfState) : List Prim :=
  s'.prims.drop s.prims.length

/-- The cell width actually used when drawing at abscissa `startX`. -/
def resolvedW (startX w : Int) : Int :=
  if w = 0 then pageW - rMargin - startX else w

/-- After `n` pages have been opened, the header ran once on each of pages
`1..n` and the footer once on each of `1..n-1` (the last page's footer runs
at document close), each anchored at ordinate 282 mm. -/
def Inv (s : PdfState) : Prop :=
  1 ≤ s.page ∧ s.headerPages = List.range' 1 s.page ∧
  s.footerLog = (List.range' 1 (s.page - 1)).map (fun p => (p, 2820))

/-! ### Auxiliary definitions for the claim statements -/

/-- The style components claim C7 speaks about: font family, weight flags,
size, and text colour. -/
def styleView (s : PdfState) : String × String × Int × (Int × Int × Int) :=
  (s.style.family, s.style.flags, s.style.size, s.style.textColor)

/-- 61 empty code lines (60 newlines): a code block taller than one page's
printable area. -/
def code61 : String := String.mk (List.replicate 60 '\n')

/-- A concrete mid-page state: cursor at 265 mm on page 1. -/
def cs3 : PdfState :=
  { initState with page := 1, y := 2650, headerPages := [1] }

/-- Page-1 state whose draw colour was left at the heading blue. -/
def cexA : PdfState :=
  { initState with
    page := 1
    style := { defaultStyle with drawColor := (25, 55, 120) } }

/-- Page-1 state with the default (black) draw colour. -/
def cexB : PdfState := { initState with page := 1 }

/-- Page-3 state with an exotic font and colours but default draw colour. -/
def cexC : PdfState :=
  { initState with
    page := 3
    style :=
      { defaultStyle with
        family := "Times"
        flags := "B"
        size := 40
        textColor := (9, 9, 9)
        fillColor := (1, 2, 3) } }

/-- Page-3 state with the default style. -/
def cexD : PdfState := { initState with page := 3 }

/-- A state carrying a heading-like style, to observe style leakage. -/
def cexStyled : PdfState :=
  { initState with
    style :=
      { defaultStyle with
        family := "Courier"
        flags := "B"
        size := 16
        textColor := (25, 55, 120) } }

/-! ### Exact emission of the header, footer, and page transition -/

/-- The grey style the header and footer select before drawing. -/
def hfStyle (st : Style) : Style :=
  { st with
    family := "Helvetica"
    flags := "I"
    size := 8
    textColor := (120, 120, 120) }

/-- The three primitives one `header` run emits, as a function of the page
number, the entry cursor, and the ambient draw colour. -/
def hdrPrims (page : Nat) (x y : Int) (dc : Int × Int × Int) : List Prim :=
  [Prim.textCell page x y (pageW - rMargin - x) 50
      "TP3 - Hexagone 2026 | Mathias Kowalski"
      "Helvetica" "I" 8 (120, 120, 120) Align.L Src.header,
   Prim.textCell page (x + (pageW - rMargin - x)) y
      (pageW - rMargin - (x + (pageW - rMargin - x))) 50
      ("Page " ++ toString page ++ "/\x7bnb\x7d")
      "Helvetica" "I" 8 (120, 120, 120) Align.R Src.header,
   Prim.lineSeg page 100 130 2000 130 dc Src.header]

/-- The two primitives one `footer` run emits, as a function of the page
number and the ambient draw colour. -/
def ftrPrims (page : Nat) (dc : Int × Int × Int) : List Prim :=
  [Prim.lineSeg page 100 2800 2000 2800 dc Src.footer,
   Prim.textCell page 100 2820 1900 100
      "Below - Console RPG | C++17 / ECS Architecture"
      "Helvetica" "I" 8 (120, 120, 120) Align.C Src.footer]

theorem header_eq (s : PdfState) :
    header s =
      { s with
        x := lMargin
        y := s.y + 90
        style := hfStyle s.style
        prims := s.prims ++ hdrPrims s.page s.x s.y s.style.drawColor } := by
  simp [header, hdrPrims, hfStyle, set_font, set_text_color, cellNB, cellW,
    line, ln, pageW, rMargin, lMargin]
  omega

theorem footer_eq (s : PdfState) :
    footer s =
      { s with
        x := 2000
        y := 2820
        style := hfStyle s.style
        prims := s.prims ++ ftrPrims s.page s.style.drawColor
        footerLog := s.footerLog ++ [(s.page, 2820)] } := by
  simp [footer, ftrPrims, hfStyle, set_y, set_font, set_text_color, cellNB,
    cellW, line, pageH, pageW, rMargin, lMargin]

theorem add_page_eq (s : PdfState) (h : 1 ≤ s.page) :
    add_page s =
      { s with
        page := s.page + 1
        x := lMargin
        y := 190
        prims := s.prims ++ ftrPrims s.page s.style.drawColor
          ++ hdrPrims (s.page + 1) lMargin tMargin s.style.drawColor
        headerPages := s.headerPages ++ [s.page + 1]
        footerLog := s.footerLog ++ [(s.page, 2820)] } := by
  simp [add_page, h, footer_eq, header_eq, hfStyle, tMargin, lMargin]

theorem add_page_eq0 (s : PdfState) (h : s.page = 0) :
    add_page s =
      { s with
        page := 1
        x := lMargin
        y := 190
        prims := s.prims ++ hdrPrims 1 lMargin tMargin s.style.drawColor
        headerPages := s.headerPages ++ [1] } := by
  simp [add_page, h, header_eq, hfStyle, tMargin, lMargin]

@[simp]
theorem add_page_page (s : PdfState) : (add_page s).page = s.page + 1 := by
  rcases Nat.eq_zero_or_pos s.page with h | h
  · rw [add_page_eq0 s h, h]
  · rw [add_page_eq s h]

@[simp]
theorem add_page_style (s : PdfState) : (add_page s).style = s.style := by
  rcases Nat.eq_zero_or_pos s.page with h | h
  · rw [add_page_eq0 s h]
  · rw [add_page_eq s h]

@[simp]
theorem add_page_x (s : PdfState) : (add_page s).x = lMargin := by
  rcases Nat.eq_zero_or_pos s.page with h | h
  · rw [add_page_eq0 s h]
  · rw [add_page_eq s h]

@[simp]
theorem add_page_y (s : PdfState) : (add_page s).y = 190 := by
  rcases Nat.eq_zero_or_pos s.page with h | h
  · rw [add_page_eq0 s h]
  · rw [add_page_eq s h]

theorem add_page_headerPages (s : PdfState) :
    (add_page s).headerPages = s.headerPages ++ [s.page + 1] := by
  rcases Nat.eq_zero_or_pos s.page with h | h
  · rw [add_page_eq0 s h, h]
  · rw [add_page_eq s h]

theorem add_page_footerLog (s : PdfState) :
    (add_page s).footerLog =
      if 1 ≤ s.page then s.footerLog ++ [(s.page, 2820)] else s.footerLog := by
  rcases Nat.eq_zero_or_pos s.page with h | h
  · rw [add_page_eq0 s h, if_neg (by omega)]
  · rw [add_page_eq s h, if_pos (show 1 ≤ s.page from h)]

theorem add_page_prims (s : PdfState) :
    ∃ l, (add_page s).prims = s.prims ++ l ∧
      ∀ pr ∈ l, pr.srcOf ≠ Src.body := by
  rcases Nat.eq_zero_or_pos s.page with h | h
  · refine ⟨hdrPrims 1 lMargin tMargin s.style.drawColor, ?_, ?_⟩
    · rw [add_page_eq0 s h]
    · intro pr hpr
      simp only [hdrPrims, List.mem_cons, List.mem_singleton,
        List.not_mem_nil, or_false] at hpr
      rcases hpr with h1 | h1 | h1 <;> subst h1 <;> simp [Prim.srcOf]
  · refine ⟨ftrPrims s.page s.style.drawColor
      ++ hdrPrims (s.page + 1) lMargin tMargin s.style.drawColor, ?_, ?_⟩
    · rw [add_page_eq s h, List.append_assoc]
    · intro pr hpr
      simp only [hdrPrims, ftrPrims, List.mem_append, List.mem_cons,
        List.mem_singleton, List.not_mem_nil, or_false] at hpr
      rcases hpr with (h1 | h1) | (h1 | h1 | h1) <;> subst h1 <;>
        simp [Prim.srcOf]

@[simp]
theorem cell_style (w h : Int) (t : String) (al : Align) (nx : NewX)
    (ny : NewY) (s : PdfState) : (cell w h t al nx ny s).style = s.style := by
  unfold cell
  split <;> simp [cellNB]

/-! ### The page bookkeeping invariant (for C6) -/

theorem Inv_congr {s s' : PdfState} (h : Inv s) (hp : s'.page = s.page)
    (hh : s'.headerPages = s.headerPages)
    (hf : s'.footerLog = s.footerLog) : Inv s' := by
  unfold Inv at h ⊢
  rw [hp, hh, hf]
  exact h

theorem Inv_add_page {s : PdfState} (h : Inv s) : Inv (add_page s) := by
  obtain ⟨h1, h2, h3⟩ := h
  refine ⟨by simp, ?_, ?_⟩
  · rw [add_page_headerPages, h2, add_page_page,
      List.range'_1_concat 1 s.page, Nat.add_comm]
  · rw [add_page_footerLog, if_pos h1, h3, add_page_page]
    have he : s.page + 1 - 1 = (s.page - 1) + 1 := by omega
    rw [he, List.range'_1_concat, List.map_append]
    have h4 : 1 + (s.page - 1) = s.page := by omega
    simp [h4]

theorem Inv_cell {w h : Int} {t : String} {al : Align} {nx : NewX}
    {ny : NewY} {s : PdfState} (hs : Inv s) :
    Inv (cell w h t al nx ny s) := by
  unfold cell
  split
  · exact Inv_congr (Inv_congr (Inv_add_page hs) rfl rfl rfl) rfl rfl rfl
  · exact Inv_congr hs rfl rfl rfl

theorem Inv_set_font {fam fl : String} {sz : Int} {s : PdfState}
    (hs : Inv s) : Inv (set_font fam fl sz s) :=
  Inv_congr hs rfl rfl rfl

theorem Inv_set_text_color {r g b : Int} {s : PdfState} (hs : Inv s) :
    Inv (set_text_color r g b s) :=
  Inv_congr hs rfl rfl rfl

theorem Inv_set_draw_color {r g b : Int} {s : PdfState} (hs : Inv s) :
    Inv (set_draw_color r g b s) :=
  Inv_congr hs rfl rfl rfl

theorem Inv_set_fill_color {r g b : Int} {s : PdfState} (hs : Inv s) :
    Inv (set_fill_color r g b s) :=
  Inv_congr hs rfl rfl rfl

theorem Inv_set_x {v : Int} {s : PdfState} (hs : Inv s) :
    Inv (set_x v s) :=
  Inv_congr hs rfl rfl rfl

theorem Inv_set_xy {vx vy : Int} {s : PdfState} (hs : Inv s) :
    Inv (set_xy vx vy s) :=
  Inv_congr hs rfl rfl rfl

theorem Inv_ln {h : Int} {s : PdfState} (hs : Inv s) : Inv (ln h s) :=
  Inv_congr hs rfl rfl rfl

theorem Inv_line {src : Src} {x1 y1 x2 y2 : Int} {s : PdfState}
    (hs : Inv s) : Inv (line src x1 y1 x2 y2 s) :=
  Inv_congr hs rfl rfl rfl

theorem Inv_rect {x y w h : Int} {s : PdfState} (hs : Inv s) :
    Inv (rect x y w h s) :=
  Inv_congr hs rfl rfl rfl

theorem mcFold_nil (startX w h : Int) (s : PdfState) :
    mcFold startX w h [] s = s := rfl

theorem mcFold_cons (startX w h : Int) (l : String) (ls : List String)
    (s : PdfState) :
    mcFold startX w h (l :: ls) s =
      mcFold startX w h ls
        (cell w h l Align.J NewX.LMARGIN NewY.NEXT (set_x startX s)) := rfl

theorem cbFold_nil (xpos : Int) (s : PdfState) : cbFold xpos [] s = s := rfl

theorem cbFold_cons (xpos : Int) (l : String) (ls : List String)
    (s : PdfState) :
    cbFold xpos (l :: ls) s =
      cbFold xpos ls
        (set_x xpos (cell 0 42 l Align.L NewX.LMARGIN NewY.NEXT s)) := rfl

theorem Inv_mcFold (startX w h : Int) (ls : List String) :
    ∀ s : PdfState, Inv s → Inv (mcFold startX w h ls s) := by
  induction ls with
  | nil => intro s hs; rw [mcFold_nil]; exact hs
  | cons l rest ih =>
    intro s hs
    rw [mcFold_cons]
    exact ih _ (Inv_cell (Inv_set_x hs))

theorem Inv_cbFold (xpos : Int) (ls : List String) :
    ∀ s : PdfState, Inv s → Inv (cbFold xpos ls s) := by
  induction ls with
  | nil => intro s hs; rw [cbFold_nil]; exact hs
  | cons l rest ih =>
    intro s hs
    rw [cbFold_cons]
    exact ih _ (Inv_set_x (Inv_cell hs))

theorem Inv_multi_cell {w h : Int} {t : String} {s : PdfState} (hs : Inv s) :
    Inv (multi_cell w h t s) := by
  simp only [multi_cell]
  exact Inv_congr
    (Inv_mcFold s.x (cellW w s) h (wrapText (cellW w s) s.style.size t) s hs)
    rfl rfl rfl

theorem Inv_body_text (t : String) (s : PdfState) (hs : Inv s) :
    Inv (body_text t s) := by
  simp only [body_text]
  exact Inv_ln (Inv_multi_cell (Inv_set_text_color (Inv_set_font hs)))

theorem Inv_bullet_point (t : String) (i : Int) (s : PdfState) (hs : Inv s) :
    Inv (bullet_point t i s) := by
  simp only [bullet_point]
  exact Inv_multi_cell (Inv_set_x (Inv_set_text_color (Inv_set_font hs)))

theorem Inv_code_block (c : String) (s : PdfState) (hs : Inv s) :
    Inv (code_block c s) := by
  simp only [code_block]
  split
  · exact Inv_ln (Inv_cbFold _ _ _ (Inv_set_xy (Inv_rect (Inv_add_page
      (Inv_set_draw_color (Inv_set_text_color (Inv_set_fill_color
        (Inv_set_font hs))))))))
  · exact Inv_ln (Inv_cbFold _ _ _ (Inv_set_xy (Inv_rect
      (Inv_set_draw_color (Inv_set_text_color (Inv_set_fill_color
        (Inv_set_font hs)))))))

theorem Inv_bold_text (lab t : String) (s : PdfState) (hs : Inv s) :
    Inv (bold_text lab t s) := by
  simp only [bold_text]
  exact Inv_multi_cell (Inv_set_font (Inv_cell
    (Inv_set_text_color (Inv_set_font hs))))

theorem Inv_chapter_title (t : String) (lvl : Nat) (s : PdfState)
    (hs : Inv s) : Inv (chapter_title t lvl s) := by
  simp only [chapter_title]
  split
  · exact Inv_ln (Inv_line (Inv_set_draw_color (Inv_cell (Inv_ln
      (Inv_set_text_color (Inv_set_font hs))))))
  · split
    · exact Inv_ln (Inv_cell (Inv_ln
        (Inv_set_text_color (Inv_set_font hs))))
    · split
      · exact Inv_ln (Inv_cell (Inv_ln
          (Inv_set_text_color (Inv_set_font hs))))
      · exact hs

theorem Inv_tocEntryRow (num title : String) (p : Nat) (s : PdfState)
    (hs : Inv s) : Inv (tocEntryRow num title p s) := by
  simp only [tocEntryRow]
  exact Inv_cell (Inv_set_font hs)

theorem Inv_renderBlock (b : Block) (s : PdfState) (hs : Inv s) :
    Inv (renderBlock s b) := by
  cases b with
  | heading lvl t => exact Inv_chapter_title t lvl s hs
  | paragraph t => exact Inv_body_text t s hs
  | bullet t i => exact Inv_bullet_point t i s hs
  | code c => exact Inv_code_block c s hs
  | keyValue lab t => exact Inv_bold_text lab t s hs
  | tocEntry n t p => exact Inv_tocEntryRow n t p s hs
  | pageBreak => exact Inv_add_page hs
  | vspace h => exact Inv_congr hs rfl rfl rfl

theorem Inv_foldl (bs : List Block) :
    ∀ s : PdfState, Inv s → Inv (bs.foldl renderBlock s) := by
  induction bs with
  | nil => intro s hs; exact hs
  | cons b rest ih =>
    intro s hs
    rw [List.foldl_cons]
    exact ih _ (Inv_renderBlock b s hs)

theorem Inv_start : Inv (add_page initState) := by
  rw [add_page_eq0 initState rfl]
  refine ⟨by simp [initState], by simp [initState], by simp [initState]⟩

/-! ### Emission lemmas for the per-line cell loops -/

theorem cell_noBreak {w h : Int} {t : String} {al : Align} {nx : NewX}
    {ny : NewY} {s : PdfState} (hnb : ¬ pageBreakTrigger < s.y + h) :
    cell w h t al nx ny s = cellNB Src.body w h t al nx ny s := by
  unfold cell
  rw [if_neg hnb]

theorem cell_break {w h : Int} {t : String} {al : Align} {nx : NewX}
    {ny : NewY} {s : PdfState} (hb : pageBreakTrigger < s.y + h) :
    cell w h t al nx ny s =
      cellNB Src.body w h t al nx ny { add_page s with x := s.x } := by
  unfold cell
  rw [if_pos hb]

theorem cbFold_noBreak (xpos : Int) (ls : List String) :
    ∀ s : PdfState, s.y + 42 * ls.length ≤ pageBreakTrigger →
      (cbFold xpos ls s).page = s.page ∧
      (cbFold xpos ls s).y = s.y + 42 * ls.length ∧
      ∃ l, (cbFold xpos ls s).prims = s.prims ++ l ∧
        ∀ pr ∈ l, pr.pageOf = s.page := by
  induction ls with
  | nil =>
    intro s _
    rw [cbFold_nil]
    exact ⟨rfl, by simp, [], by simp, by simp⟩
  | cons l rest ih =>
    intro s hbound
    have hlen : ((l :: rest).length : Int) = rest.length + 1 := by
      push_cast [List.length_cons]
      ring
    have hnb : ¬ pageBreakTrigger < s.y + 42 := by
      have : (0 : Int) ≤ 42 * rest.length := by positivity
      rw [hlen] at hbound
      omega
    rw [cbFold_cons, cell_noBreak hnb]
    set s1 := set_x xpos (cellNB Src.body 0 42 l Align.L NewX.LMARGIN
      NewY.NEXT s) with hs1
    have h1page : s1.page = s.page := rfl
    have h1y : s1.y = s.y + 42 := rfl
    have h1prims : s1.prims = s.prims ++
        [Prim.textCell s.page s.x s.y (cellW 0 s) 42 l s.style.family
          s.style.flags s.style.size s.style.textColor Align.L Src.body] :=
      rfl
    have hb1 : s1.y + 42 * rest.length ≤ pageBreakTrigger := by
      rw [h1y]
      rw [hlen] at hbound
      omega
    obtain ⟨hp, hy, lrest, hlp, hlpage⟩ := ih s1 hb1
    refine ⟨by rw [hp, h1page], by rw [hy, h1y, hlen]; ring, ?_⟩
    refine ⟨Prim.textCell s.page s.x s.y (cellW 0 s) 42 l s.style.family
      s.style.flags s.style.size s.style.textColor Align.L Src.body :: lrest,
      ?_, ?_⟩
    · rw [hlp, h1prims, List.append_assoc]
      rfl
    · intro pr hpr
      rcases List.mem_cons.mp hpr with h | h
      · subst h
        rfl
      · rw [hlpage pr h, h1page]

theorem code_block_spec (c : String) (s : PdfState)
    (hn : (pySplit '\n' c).length ≤ 60) :
    ∃ lhf lbody,
      (code_block c s).prims = s.prims ++ lhf ++ lbody ∧
      (∀ pr ∈ lhf, pr.srcOf ≠ Src.body) ∧
      (∀ pr ∈ lbody, pr.pageOf =
        (if 2700 < s.y + (((pySplit '\n' c).length : Int) * 42 + 40)
         then s.page + 1 else s.page)) ∧
      (code_block c s).page =
        (if 2700 < s.y + (((pySplit '\n' c).length : Int) * 42 + 40)
         then s.page + 1 else s.page) := by
  have hEq : code_block c s =
      ln 30 (cbFold (s.x + 50 + 30) (pySplit '\n' c)
        (set_xy (s.x + 50 + 30)
          ((if 2700 < s.y + (((pySplit '\n' c).length : Int) * 42 + 40)
            then (if 2700 < s.y + (((pySplit '\n' c).length : Int) * 42 + 40)
                  then add_page (cbStyle s) else cbStyle s).y
            else s.y) + 20)
          (rect (s.x + 50)
            (if 2700 < s.y + (((pySplit '\n' c).length : Int) * 42 + 40)
             then (if 2700 < s.y + (((pySplit '\n' c).length : Int) * 42 + 40)
                   then add_page (cbStyle s) else cbStyle s).y
             else s.y)
            1800 (((pySplit '\n' c).length : Int) * 42 + 40)
            (if 2700 < s.y + (((pySplit '\n' c).length : Int) * 42 + 40)
             then add_page (cbStyle s) else cbStyle s)))) := rfl
  by_cases hbr : 2700 < s.y + (((pySplit '\n' c).length : Int) * 42 + 40)
  · simp only [hEq, hbr, if_true]
    obtain ⟨lhf, hhf, hhfsrc⟩ := add_page_prims (cbStyle s)
    have hstP : (cbStyle s).prims = s.prims := rfl
    rw [hstP] at hhf
    set A := add_page (cbStyle s) with hA
    set rp := Prim.rectPrim A.page (s.x + 50) A.y 1800
      (((pySplit '\n' c).length : Int) * 42 + 40)
      A.style.drawColor A.style.fillColor Src.body with hrp
    set st3 := set_xy (s.x + 50 + 30) (A.y + 20)
      (rect (s.x + 50) A.y 1800
        (((pySplit '\n' c).length : Int) * 42 + 40) A) with hst3
    have h3prims : st3.prims = s.prims ++ lhf ++ [rp] := by
      rw [hst3]
      show (rect (s.x + 50) A.y 1800 _ A).prims = _
      show A.prims ++ [_] = _
      rw [hhf, List.append_assoc]
    have h3page : st3.page = A.page := rfl
    have h3y : st3.y = 210 := by
      show A.y + 20 = 210
      rw [hA, add_page_y]
      norm_num
    have hb3 : st3.y + 42 * (pySplit '\n' c).length ≤ pageBreakTrigger := by
      rw [h3y, pageBreakTrigger, pageH, bMargin]
      have : ((pySplit '\n' c).length : Int) ≤ 60 := by exact_mod_cast hn
      omega
    obtain ⟨hfp, hfy, lfold, hfoldp, hfoldpage⟩ :=
      cbFold_noBreak (s.x + 50 + 30) (pySplit '\n' c) st3 hb3
    have hApage : A.page = s.page + 1 := by
      rw [hA, add_page_page]
      rfl
    refine ⟨lhf, rp :: lfold, ?_, hhfsrc, ?_, ?_⟩
    · show (cbFold (s.x + 50 + 30) (pySplit '\n' c) st3).prims = _
      rw [hfoldp, h3prims]
      simp
    · intro pr hpr
      rcases List.mem_cons.mp hpr with h | h
      · subst h
        rw [hrp, hApage]
        rfl
      · rw [hfoldpage pr h, h3page, hApage]
    · show (cbFold (s.x + 50 + 30) (pySplit '\n' c) st3).page = _
      rw [hfp, h3page, hApage]
  · simp only [hEq, hbr, if_false]
    set B := cbStyle s with hB
    set rp := Prim.rectPrim B.page (s.x + 50) s.y 1800
      (((pySplit '\n' c).length : Int) * 42 + 40)
      B.style.drawColor B.style.fillColor Src.body with hrp
    set st3 := set_xy (s.x + 50 + 30) (s.y + 20)
      (rect (s.x + 50) s.y 1800
        (((pySplit '\n' c).length : Int) * 42 + 40) B) with hst3
    have hBp : B.prims = s.prims := rfl
    have hBpage : B.page = s.page := rfl
    have h3prims : st3.prims = s.prims ++ [rp] := by
      rw [hst3]
      show (rect (s.x + 50) s.y 1800 _ B).prims = _
      show B.prims ++ [_] = _
      rw [hBp]
    have h3page : st3.page = s.page := rfl
    have h3y : st3.y = s.y + 20 := rfl
    have hb3 : st3.y + 42 * (pySplit '\n' c).length ≤ pageBreakTrigger := by
      rw [h3y, pageBreakTrigger, pageH, bMargin]
      push_neg at hbr
      omega
    obtain ⟨hfp, hfy, lfold, hfoldp, hfoldpage⟩ :=
      cbFold_noBreak (s.x + 50 + 30) (pySplit '\n' c) st3 hb3
    refine ⟨[], rp :: lfold, ?_, by simp, ?_, ?_⟩
    · show (cbFold (s.x + 50 + 30) (pySplit '\n' c) st3).prims = _
      rw [hfoldp, h3prims]
      simp
    · intro pr hpr
      rcases List.mem_cons.mp hpr with h | h
      · subst h
        rw [hrp, hBpage]
        rfl
      · rw [hfoldpage pr h, h3page]
    · show (cbFold (s.x + 50 + 30) (pySplit '\n' c) st3).page = _
      rw [hfp, h3page]

theorem closeDoc_of_Inv {s : PdfState} (hs : Inv s) :
    (closeDoc s).page = s.page ∧
    (closeDoc s).headerPages = List.range' 1 s.page ∧
    (closeDoc s).footerLog =
      (List.range' 1 s.page).map (fun p => (p, 2820)) := by
  obtain ⟨h1, h2, h3⟩ := hs
  unfold closeDoc
  rw [if_pos h1, footer_eq]
  refine ⟨rfl, h2, ?_⟩
  show s.footerLog ++ [(s.page, 2820)] = _
  rw [h3]
  obtain ⟨m, hm⟩ : ∃ m, s.page = m + 1 := ⟨s.page - 1, by omega⟩
  rw [hm]
  rw [List.range'_1_concat 1 m, List.map_append]
  simp
  omega

/-! ### Style preservation through the cell loops -/

@[simp]
theorem mcFold_style (startX w h : Int) (ls : List String) :
    ∀ s : PdfState, (mcFold startX w h ls s).style = s.style := by
  induction ls with
  | nil => intro s; rw [mcFold_nil]
  | cons l rest ih =>
    intro s
    rw [mcFold_cons, ih]
    rw [cell_style]
    rfl

@[simp]
theorem cbFold_style (xpos : Int) (ls : List String) :
    ∀ s : PdfState, (cbFold xpos ls s).style = s.style := by
  induction ls with
  | nil => intro s; rw [cbFold_nil]
  | cons l rest ih =>
    intro s
    rw [cbFold_cons, ih]
    show (cell 0 42 l Align.L NewX.LMARGIN NewY.NEXT s).style = s.style
    rw [cell_style]

@[simp]
theorem multi_cell_style (w h : Int) (t : String) (s : PdfState) :
    (multi_cell w h t s).style = s.style := by
  simp only [multi_cell]
  show (mcFold s.x (cellW w s) h (wrapText (cellW w s) s.style.size t) s).style
    = s.style
  rw [mcFold_style]

/-! ### Emission spec of `multi_cell` (for the bullet renderer) -/

theorem filter_body_nil {l : List Prim}
    (h : ∀ pr ∈ l, pr.srcOf ≠ Src.body) :
    l.filter (fun pr => pr.srcOf == Src.body) = [] := by
  rw [List.filter_eq_nil_iff]
  intro pr hpr
  simpa using h pr hpr

theorem mcFold_spec (startX w h : Int) (ls : List String) :
    ∀ s : PdfState,
      ∃ l, (mcFold startX w h ls s).prims = s.prims ++ l ∧
        (l.filter (fun pr => pr.srcOf == Src.body)).map Prim.textOf = ls ∧
        ∀ pr ∈ l, pr.srcOf = Src.body →
          pr.xOf = startX ∧ pr.wOf = resolvedW startX w := by
  induction ls with
  | nil =>
    intro s
    exact ⟨[], by rw [mcFold_nil]; simp, by simp, by simp⟩
  | cons l rest ih =>
    intro s
    rw [mcFold_cons]
    by_cases hb : pageBreakTrigger < (set_x startX s).y + h
    · rw [cell_break hb]
      obtain ⟨lhf, hhf, hhfsrc⟩ := add_page_prims (set_x startX s)
      set sA : PdfState :=
        { add_page (set_x startX s) with x := (set_x startX s).x } with hsA
      set p1 := Prim.textCell sA.page sA.x sA.y (cellW w sA) h l
        sA.style.family sA.style.flags sA.style.size sA.style.textColor
        Align.J Src.body with hp1
      set s2 := cellNB Src.body w h l Align.J NewX.LMARGIN NewY.NEXT sA
        with hs2
      have h2prims : s2.prims = s.prims ++ (lhf ++ [p1]) := by
        show sA.prims ++ [p1] = _
        show (add_page (set_x startX s)).prims ++ [p1] = _
        rw [hhf]
        show s.prims ++ lhf ++ [p1] = _
        rw [List.append_assoc]
      obtain ⟨l', hl', hfl', hall'⟩ := ih s2
      refine ⟨(lhf ++ [p1]) ++ l', ?_, ?_, ?_⟩
      · rw [hl', h2prims, List.append_assoc]
      · rw [List.filter_append, List.filter_append, filter_body_nil hhfsrc]
        have hp1body : (List.filter (fun pr => pr.srcOf == Src.body) [p1])
            = [p1] := by
          rw [hp1]
          rfl
        rw [hp1body]
        simp only [List.nil_append, List.cons_append]
        rw [List.map_cons, hfl', hp1]
        rfl
      · intro pr hpr
        rcases List.mem_append.mp hpr with hh | hh
        · rcases List.mem_append.mp hh with hh1 | hh1
          · intro hbody
            exact absurd hbody (hhfsrc pr hh1)
          · intro _
            rcases List.mem_singleton.mp hh1 with rfl
            exact ⟨rfl, rfl⟩
        · exact hall' pr hh
    · rw [cell_noBreak hb]
      set p1 := Prim.textCell (set_x startX s).page startX (set_x startX s).y
        (cellW w (set_x startX s)) h l (set_x startX s).style.family
        (set_x startX s).style.flags (set_x startX s).style.size
        (set_x startX s).style.textColor Align.J Src.body with hp1
      set s2 := cellNB Src.body w h l Align.J NewX.LMARGIN NewY.NEXT
        (set_x startX s) with hs2
      have h2prims : s2.prims = s.prims ++ [p1] := rfl
      obtain ⟨l', hl', hfl', hall'⟩ := ih s2
      refine ⟨[p1] ++ l', ?_, ?_, ?_⟩
      · rw [hl', h2prims, List.append_assoc]
      · rw [List.filter_append]
        have hp1body : (List.filter (fun pr => pr.srcOf == Src.body) [p1])
            = [p1] := by
          rw [hp1]
          rfl
        rw [hp1body]
        simp only [List.nil_append, List.cons_append]
        rw [List.map_cons, hfl', hp1]
        rfl
      · intro pr hpr
        rcases List.mem_append.mp hpr with hh | hh
        · intro _
          rcases List.mem_singleton.mp hh with rfl
          exact ⟨rfl, rfl⟩
        · exact hall' pr hh

@[simp]
theorem ln_style (h : Int) (s : PdfState) : (ln h s).style = s.style := rfl

@[simp]
theorem set_x_style (v : Int) (s : PdfState) :
    (set_x v s).style = s.style := rfl

@[simp]
theorem set_xy_style (vx vy : Int) (s : PdfState) :
    (set_xy vx vy s).style = s.style := rfl

@[simp]
theorem rect_style (x y w h : Int) (s : PdfState) :
    (rect x y w h s).style = s.style := rfl

@[simp]
theorem line_style (src : Src) (x1 y1 x2 y2 : Int) (s : PdfState) :
    (line src x1 y1 x2 y2 s).style = s.style := rfl

@[simp]
theorem cellNB_style (src : Src) (w h : Int) (t : String) (al : Align)
    (nx : NewX) (ny : NewY) (s : PdfState) :
    (cellNB src w h t al nx ny s).style = s.style := rfl

theorem emitted_header (s : PdfState) :
    emitted s (header s) = hdrPrims s.page s.x s.y s.style.drawColor := by
  unfold emitted
  rw [header_eq]
  show (s.prims ++ hdrPrims s.page s.x s.y s.style.drawColor).drop
    s.prims.length = _
  rw [List.drop_left]

theorem emitted_footer (s : PdfState) :
    emitted s (footer s) = ftrPrims s.page s.style.drawColor := by
  unfold emitted
  rw [footer_eq]
  show (s.prims ++ ftrPrims s.page s.style.drawColor).drop
    s.prims.length = _
  rw [List.drop_left]

theorem add_page_iterate_page (n : Nat) :
    ∀ s : PdfState, (add_page^[n] s).page = s.page + n := by
  induction n with
  | zero => intro s; simp
  | succ k ih =>
    intro s
    rw [Function.iterate_succ_apply, ih (add_page s), add_page_page]
    omega

/-! ### Claim theorems -/

/-- C4: on every page the header draws the fixed running title, then the
page-number label whose text is exactly `"Page {page_no}/{nb}"` (the current
1-indexed page number, a slash, and the deferred total-page token), then a
horizontal rule — in that order, in Helvetica italic 8 with grey text. -/
theorem C4_header_format (s : PdfState) :
    ∃ w1 x2 w2 ruleColor,
      emitted s (header s) =
        [Prim.textCell s.page s.x s.y w1 50
            "TP3 - Hexagone 2026 | Mathias Kowalski"
            "Helvetica" "I" 8 (120, 120, 120) Align.L Src.header,
         Prim.textCell s.page x2 s.y w2 50
            ("Page " ++ toString s.page ++ "/\x7bnb\x7d")
            "Helvetica" "I" 8 (120, 120, 120) Align.R Src.header,
         Prim.lineSeg s.page 100 130 2000 130 ruleColor Src.header] := by
  refine ⟨pageW - rMargin - s.x, s.x + (pageW - rMargin - s.x),
    pageW - rMargin - (s.x + (pageW - rMargin - s.x)),
    s.style.drawColor, ?_⟩
  rw [emitted_header]
  rfl

/-- C10 (amended): header and footer text output is independent of the style
state content rendering leaves behind — both set their own font and text
colour unconditionally, and all positions are fixed — but the horizontal
rules are stroked with the ambient draw colour, so the emitted primitives of
two renders at the same page number coincide exactly when the two states
also agree on the current draw colour (the original claim, without that
proviso, is refuted by `C10_counterexample`). -/
theorem C10_amended_header_footer_independence (s1 s2 : PdfState)
    (hpg : s1.page = s2.page)
    (hdc : s1.style.drawColor = s2.style.drawColor) :
    emitted s1 (footer s1) = emitted s2 (footer s2) ∧
    (s1.x = s2.x → s1.y = s2.y →
      emitted s1 (header s1) = emitted s2 (header s2)) := by
  constructor
  · rw [emitted_footer, emitted_footer, hpg, hdc]
  · intro hx hy
    rw [emitted_header, emitted_header, hpg, hdc, hx, hy]

/-- Witness for C10 (amended): two page-3 states, one with an exotic font,
text colour and fill colour, produce identical header and footer
primitives once they share the draw colour. -/
theorem C10_amended_header_footer_independence_witness :
    emitted cexC (footer cexC) = emitted cexD (footer cexD) ∧
    (cexC.x = cexD.x → cexC.y = cexD.y →
      emitted cexC (header cexC) = emitted cexD (header cexD)) :=
  C10_amended_header_footer_independence cexC cexD (by decide) (by decide)

/-- Counterexample to C10 as stated: two states at the same page number and
cursor, differing only in the ambient draw colour, emit different header
and footer primitives (the horizontal rules change colour), although the
header sets its own font and grey text colour. -/
theorem C10_counterexample :
    cexA.page = cexB.page ∧ cexA.x = cexB.x ∧ cexA.y = cexB.y ∧
    emitted cexA (header cexA) ≠ emitted cexB (header cexB) ∧
    emitted cexA (footer cexA) ≠ emitted cexB (footer cexB) := by
  decide

/-- C8: rendering is deterministic — the produced document is a function of
the block sequence alone, so two runs on equal inputs produce identical
output. -/
theorem C8_deterministic (bs1 bs2 : List Block) (h : bs1 = bs2) :
    renderDoc bs1 = renderDoc bs2 := by
  rw [h]

/-- Witness for C8: two runs on the same concrete block list agree. -/
theorem C8_deterministic_witness :
    renderDoc [Block.heading 1 "Intro", Block.paragraph "short text"] =
      renderDoc [Block.heading 1 "Intro", Block.paragraph "short text"] :=
  C8_deterministic _ _ rfl

/-- C5: the TOC dot leader consists of exactly
`max (70 - len num - len title) 0` dots; when the number and title fill the
column the leader is empty (and the row still renders, as the total
function `tocRow` shows). -/
theorem C5_toc_dot_leader (num title : String) :
    ((tocDots num title).length : Int) =
      max (70 - (num.length : Int) - title.length) 0 ∧
    (70 ≤ (num.length : Int) + title.length → tocDots num title = "") ∧
    ∀ page : Nat, tocRow num title page =
      num ++ "  " ++ title ++ " " ++ tocDots num title ++ " "
        ++ toString page := by
  refine ⟨?_, ?_, fun _ => rfl⟩
  · have hlen : (tocDots num title).length
        = (70 - (num.length : Int) - title.length).toNat := by
      show (List.replicate _ '.').length = _
      rw [List.length_replicate]
    rw [hlen]
    exact Int.toNat_eq_max _
  · intro h
    unfold tocDots
    have h0 : (70 - (num.length : Int) - title.length).toNat = 0 := by
      omega
    rw [h0]
    rfl

/-- Witness for C5: a 2-character number and a 68-character title leave no
room, and the dot leader is empty. -/
theorem C5_toc_dot_leader_witness :
    tocDots "3."
      "An extremely long table-of-contents title that fills the whole column !!"
      = "" :=
  (C5_toc_dot_leader "3."
    "An extremely long table-of-contents title that fills the whole column !!").2.1
    (by decide)

/-- C6: in every rendered document, the header ran exactly once on each page
`1..N` and the footer exactly once on each page `1..N` (`N` the final page
count), and every footer is anchored at the constant ordinate
`pageH - 15 mm` — identical on all pages regardless of body content. -/
theorem C6_header_footer_per_page (bs : List Block) :
    (renderDoc bs).headerPages = List.range' 1 (renderDoc bs).page ∧
    (renderDoc bs).footerLog =
      (List.range' 1 (renderDoc bs).page).map
        (fun p => (p, pageH - 150)) := by
  have hInv : Inv (bs.foldl renderBlock (add_page initState)) :=
    Inv_foldl bs _ Inv_start
  obtain ⟨hp, hh, hf⟩ := closeDoc_of_Inv hInv
  unfold renderDoc
  rw [hp, hh, hf]
  have h2820 : pageH - 150 = (2820 : Int) := by norm_num [pageH]
  simp [h2820]

/-- C2: resolution of the deferred total-page-count token, modelled from the
spec (§4.5/§7) since the `{nb}` substitution happens inside the external
fpdf library: a successful resolution substitutes exactly the final page
count and its width fits the reservation, and a 150-page document with a
2-digit reservation fails with `ConfigurationError` instead of truncating. -/
theorem C2_deferred_token_resolution :
    (∀ reserved : Nat, ∀ s : PdfState, ∀ out : List Prim,
        resolveDeferred reserved s = Except.ok out →
          (toString s.page).length ≤ reserved ∧
          out = s.prims.map (replaceToken s.page)) ∧
    ((add_page^[150] initState).page = 150 ∧
      resolveDeferred 2 (add_page^[150] initState) =
        Except.error "ConfigurationError") := by
  constructor
  · intro reserved s out hok
    unfold resolveDeferred at hok
    split at hok
    · cases hok
    · next hcond =>
      refine ⟨by omega, ?_⟩
      cases hok
      rfl
  · have hp : (add_page^[150] initState).page = 150 := by
      rw [add_page_iterate_page 150 initState]
      rfl
    refine ⟨hp, ?_⟩
    unfold resolveDeferred
    rw [hp, if_pos (by decide : 2 < (toString (150 : Nat)).length)]

/-- Witness for C2: with a 3-character reservation, the 1-page document
resolves successfully and the substituted value is the page count. -/
theorem C2_deferred_token_resolution_witness :
    (toString (add_page initState).page).length ≤ 3 ∧
    (add_page initState).prims.map (replaceToken (add_page initState).page)
      = (add_page initState).prims.map
          (replaceToken (add_page initState).page) :=
  C2_deferred_token_resolution.1 3 (add_page initState) _ rfl

/-- C7 (amended): no renderer restores the caller's style — instead every
renderer unconditionally selects its own fixed style at entry and leaves it
in place at exit, so the post-invocation style (font family, weight, size,
text colour) is a constant of the renderer, independent of the style
observable before the call (the claim that the pre-call style is restored
is refuted by `C7_counterexample`). -/
theorem C7_amended_style_constants (s : PdfState) (t u c : String)
    (i : Int) :
    styleView (body_text t s) = ("Helvetica", "", 10, (30, 30, 30)) ∧
    styleView (bullet_point t i s) = ("Helvetica", "", 10, (30, 30, 30)) ∧
    styleView (code_block c s) = ("Courier", "", 8, (40, 40, 40)) ∧
    styleView (bold_text u t s) = ("Helvetica", "", 10, (30, 30, 30)) ∧
    styleView (chapter_title t 1 s) = ("Helvetica", "B", 16, (25, 55, 120)) ∧
    styleView (chapter_title t 2 s) = ("Helvetica", "B", 13, (40, 80, 150)) ∧
    styleView (chapter_title t 3 s) =
      ("Helvetica", "B", 11, (60, 100, 170)) := by
  refine ⟨?_, ?_, ?_, ?_, ?_, ?_, ?_⟩
  · simp [body_text, styleView, set_font, set_text_color]
  · simp [bullet_point, styleView, set_font, set_text_color, set_x]
  · simp only [code_block]
    split <;>
      simp [styleView, set_font, set_text_color, set_fill_color,
        set_draw_color]
  · simp [bold_text, styleView, set_font, set_text_color, cell_style]
  · simp [chapter_title, styleView, set_font, set_text_color,
      set_draw_color, cell_style]
  · simp [chapter_title, styleView, set_font, set_text_color,
      set_draw_color, cell_style]
  · simp [chapter_title, styleView, set_font, set_text_color,
      set_draw_color, cell_style]

/-- Counterexample to C7 as stated: starting `body_text` from a state whose
style is Courier bold 16 blue, the style observable after the invocation is
not the style observable before it — the renderer's own style stays in
effect. -/
theorem C7_counterexample :
    styleView (body_text "abc" cexStyled) ≠ styleView cexStyled := by
  decide

/-- C9: the bullet renderer starts drawing at the left margin offset by the
indent, hands `"- " + text` to the wrapper, and wraps within the printable
width (page width minus both margins) reduced by the indent: every body text
cell it emits sits at `lMargin + i` with that exact width, and the emitted
lines are precisely the wrap of the prefixed text at that width. -/
theorem C9_bullet_indent (s : PdfState) (t : String) (i : Int) :
    ∃ l, (bullet_point t i s).prims = s.prims ++ l ∧
      (l.filter (fun pr => pr.srcOf == Src.body)).map Prim.textOf =
        wrapText (pageW - rMargin - lMargin - i) 10 ("- " ++ t) ∧
      ∀ pr ∈ l, pr.srcOf = Src.body →
        pr.xOf = lMargin + i ∧
        pr.wOf = pageW - rMargin - lMargin - i := by
  simp only [bullet_point, multi_cell]
  set st : PdfState := set_x (lMargin + i)
    (set_text_color 30 30 30 (set_font "Helvetica" "" 10 s)) with hst
  have hstx : st.x = lMargin + i := rfl
  have hstprims : st.prims = s.prims := rfl
  have hsz : st.style.size = 10 := rfl
  have hW : cellW (pageW - rMargin - lMargin - i) st
      = pageW - rMargin - lMargin - i := by
    unfold cellW
    rw [hstx]
    split
    · next h0 =>
      rw [show pageW - rMargin - lMargin - i = 0 from h0]
      simp [pageW, rMargin, lMargin] at h0 ⊢
      omega
    · rfl
  have hRW : resolvedW st.x (cellW (pageW - rMargin - lMargin - i) st)
      = pageW - rMargin - lMargin - i := by
    rw [hW]
    unfold resolvedW
    rw [hstx]
    split
    · next h0 =>
      rw [show pageW - rMargin - lMargin - i = 0 from h0]
      simp [pageW, rMargin, lMargin] at h0 ⊢
      omega
    · rfl
  obtain ⟨l, hl, hfl, hall⟩ := mcFold_spec st.x
    (cellW (pageW - rMargin - lMargin - i) st) 55
    (wrapText (cellW (pageW - rMargin - lMargin - i) st) st.style.size
      ("- " ++ t)) st
  refine ⟨l, ?_, ?_, ?_⟩
  · show (mcFold st.x (cellW (pageW - rMargin - lMargin - i) st) 55
      (wrapText (cellW (pageW - rMargin - lMargin - i) st) st.style.size
        ("- " ++ t)) st).prims = _
    rw [hl, hstprims]
  · rw [hfl, hW, hsz]
  · intro pr hpr hbody
    obtain ⟨hx, hw⟩ := hall pr hpr hbody
    exact ⟨by rw [hx, hstx], by rw [hw, hRW]⟩

/-- C1 (amended): a code block of at most 60 lines — i.e. whose measured
height fits the printable area of a fresh page — is never split: every body
primitive it draws (the bordered rectangle and all text lines) lands on one
single page, and that page is the next page exactly when the measured
height `len(lines) * 4.2 + 4` does not fit before the hardcoded 270 mm
limit, i.e. the break happens before any part is drawn.  For taller blocks
the claim is false: see `C1_counterexample`. -/
theorem C1_amended_no_split (s : PdfState) (c : String)
    (hn : (pySplit '\n' c).length ≤ 60) :
    ∃ p, (∀ pr ∈ emitted s (code_block c s),
        pr.srcOf = Src.body → pr.pageOf = p) ∧
      p = (if 2700 < s.y + (((pySplit '\n' c).length : Int) * 42 + 40)
           then s.page + 1 else s.page) := by
  obtain ⟨lhf, lbody, hall, hsrc, hpage, _⟩ := code_block_spec c s hn
  refine ⟨_, ?_, rfl⟩
  intro pr hpr hbody
  unfold emitted at hpr
  rw [hall, List.append_assoc, List.drop_left] at hpr
  rcases List.mem_append.mp hpr with h | h
  · exact absurd hbody (hsrc pr h)
  · exact hpage pr h

/-- Witness for C1 (amended): a two-line code block drawn from the top of a
fresh page stays on a single page with no pre-draw break. -/
theorem C1_amended_no_split_witness :
    ∃ p, (∀ pr ∈ emitted (add_page initState)
          (code_block "a\nb" (add_page initState)),
        pr.srcOf = Src.body → pr.pageOf = p) ∧
      p = (if 2700 < (add_page initState).y +
            (((pySplit '\n' "a\nb").length : Int) * 42 + 40)
           then (add_page initState).page + 1
           else (add_page initState).page) :=
  C1_amended_no_split (add_page initState) "a\nb" (by decide)

set_option maxRecDepth 10000 in
/-- Counterexample to C1 as stated: a 61-line code block starting at the top
of a fresh page (page 2) overflows the printable area, and its body
primitives land on two different pages — the automatic page break splits the
text lines away from the bordered rectangle. -/
theorem C1_counterexample :
    ∃ pr1 ∈ emitted (add_page initState)
        (code_block code61 (add_page initState)),
    ∃ pr2 ∈ emitted (add_page initState)
        (code_block code61 (add_page initState)),
      pr1.srcOf = Src.body ∧ pr2.srcOf = Src.body ∧
      pr1.pageOf ≠ pr2.pageOf := by
  decide

/-- C3 (amended): `code_block`'s pre-draw page-break decision compares
`cursor.y + height` with the hardcoded constant 270 mm — not with
`pageBottom - bottomMargin` = 297 - 20 = 277 mm used by the automatic
page-break mechanism (see `C3_counterexample`): for every cursor position
and every code of at most 60 lines, a new page is created if and only if
`y + h > 270`. -/
theorem C3_amended_break_decision (s : PdfState) (c : String)
    (hn : (pySplit '\n' c).length ≤ 60) :
    (code_block c s).page =
      (if 2700 < s.y + (((pySplit '\n' c).length : Int) * 42 + 40)
       then s.page + 1 else s.page) := by
  obtain ⟨_, _, _, _, _, hp⟩ := code_block_spec c s hn
  exact hp

/-- Witness for C3 (amended): a one-line block at the top of a fresh page
does not trigger the pre-draw break. -/
theorem C3_amended_break_decision_witness :
    (code_block "x" (add_page initState)).page =
      (if 2700 < (add_page initState).y +
          (((pySplit '\n' "x").length : Int) * 42 + 40)
       then (add_page initState).page + 1
       else (add_page initState).page) :=
  C3_amended_break_decision (add_page initState) "x" (by decide)

/-- Counterexample to C3 as stated: at cursor y = 265 mm, a one-line code
block (height 8.2 mm) fits within the auto-break boundary
`pageBottom - bottomMargin` (265 + 8.2 ≤ 277), yet `code_block` opens a new
page — its decision boundary is the hardcoded 270, not 277. -/
theorem C3_counterexample :
    cs3.y + (((pySplit '\n' "x").length : Int) * 42 + 40)
      ≤ pageH - bMargin ∧
    (code_block "x" cs3).page = cs3.page + 1 := by
  decide

end BelowReport
